import Mathlib

/-!
# Verification of the `auto-FE` data-cleaning module (`data_clean.py`)

Shallow embedding of the data model and operations of `src/auto-FE/data_clean.py`:
outlier detection (`OutlierDetector.mean_detection`), random under-sampling
(`UnderSampler.random_sample`), missing-value filling (`NaFiller.fit_transform`,
`NaFiller.transform`), and the two orchestration functions `wash_data` and
`sample_data`.

Modelling conventions:
* Python floats are modelled as exact rationals `ℚ`; the one place where double
  rounding could matter (`int(data.shape[1] * 0.6)` in `wash_data`) is modelled
  by the integer floor `(3*n)/5`, which coincides with the IEEE-754 evaluation
  for all realistic column counts (the product `n * 0.6` rounds to the exact
  value `0.6*n` whenever that is an integer, since the error `n * 2.22e-17`
  stays below half an ulp).
* A pandas cell is `Option Val` (`none` = NaN); a dataframe carries explicit
  integer index labels, because several operations of the source (`Series`
  item assignment, `DataFrame.drop`) address rows by *label* while others
  (`np.where`, list comprehensions over `xrange`) produce *positions*.
* Fallible library calls are modelled with `Except Unit` / an `Option Unit`
  error component: `DataFrame.sample` raises when the requested size exceeds
  the population (`replace=False`), `DataFrame.drop` and `Series.__setitem__`
  raise on labels missing from the index, and indexing a `Series` with the
  boolean scalar `False` raises (see the `NaFiller` section below).
-/

/-- A scalar value held in a dataframe cell: a float/int (`ℚ`) or a string. -/
inductive Val where
  | num (q : ℚ)
  | str (s : String)
deriving DecidableEq, Repr

/-- A dataframe cell: `none` models NaN / a missing value. -/
abbrev Cell := Option Val

/-- A row of cells. -/
abbrev Row := List Cell

/-- `True` iff the cell is missing (`pandas.isnull`). -/
def Cell.isNA (c : Cell) : Bool := c.isNone

/-- Number of non-missing entries of a row (what `DataFrame.dropna(thresh=...)`
counts). -/
def Row.nonNACount (r : Row) : Nat := (r.filter (fun c => ¬ c.isNA)).length

/-- Number of missing entries of a row. -/
def Row.naCount (r : Row) : Nat := (r.filter (fun c => c.isNA)).length

/-! ## Python / numpy arithmetic helpers -/

/-- Python 2 `round`: round half away from zero. -/
def pythonRound (q : ℚ) : ℤ :=
  if 0 ≤ q then ⌊q + 1/2⌋ else ⌈q - 1/2⌉

/-- Mean of a list of rationals (`np.mean`); division by zero yields `0` in `ℚ`
(the empty list is a degenerate edge where numpy produces NaN — no claim
depends on it, and `mean_detection` flags nothing on an empty list either
way). -/
def npMean (vs : List ℚ) : ℚ := vs.sum / vs.length

/-- Population variance (`np.std(vs) ** 2`, `ddof=0`). -/
def npVar (vs : List ℚ) : ℚ :=
  ((vs.map (fun v => (v - npMean vs) ^ 2)).sum) / vs.length

theorem npVar_nonneg (vs : List ℚ) : 0 ≤ npVar vs := by
  unfold npVar
  apply div_nonneg
  · apply List.sum_nonneg
    intro x hx
    obtain ⟨v, _, rfl⟩ := List.mem_map.1 hx
    positivity
  · positivity

/-! ## `OutlierDetector.mean_detection`

Source (`data_clean.py`, `mean_detection`):
```
std = np.std(values); mean = np.mean(values)
lower_limit = mean - 3 * std; upper_limit = mean + 3 * std
lower_index = [num for num in xrange(len(values)) if values[num] < lower_limit]
upper_index = [num for num in xrange(len(values)) if values[num] > upper_limit]
return lower_index + upper_index
```
`np.std` is the (irrational) square root of `npVar`.  Over the reals, for
`σ = √(npVar vs) ≥ 0`:
  `v < mean - 3σ  ↔  v < mean ∧ 9·npVar < (mean - v)²`, and
  `v > mean + 3σ  ↔  mean < v ∧ 9·npVar < (v - mean)²`.
The executable definitions below use these exact rational characterisations;
the equivalence with the `Real.sqrt` formulation is proved in
`belowLower_iff_real` / `aboveUpper_iff_real` and the claim-level theorem is
stated with `Real.sqrt`. -/

/-- `v < mean - 3·std` (exact rational characterisation, see above). -/
def belowLower (vs : List ℚ) (v : ℚ) : Bool :=
  decide (v < npMean vs ∧ 9 * npVar vs < (npMean vs - v) ^ 2)

/-- `v > mean + 3·std` (exact rational characterisation, see above). -/
def aboveUpper (vs : List ℚ) (v : ℚ) : Bool :=
  decide (npMean vs < v ∧ 9 * npVar vs < (v - npMean vs) ^ 2)

/-- `OutlierDetector.mean_detection`: positions below the lower limit followed
by positions above the upper limit. -/
def mean_detection (vs : List ℚ) : List ℕ :=
  (List.range vs.length).filter (fun i => belowLower vs (vs.getD i 0)) ++
    (List.range vs.length).filter (fun i => aboveUpper vs (vs.getD i 0))

/-- Real-number reading of `belowLower`: it decides `v < mean - 3·√var`. -/
theorem belowLower_iff_real (vs : List ℚ) (v : ℚ) :
    belowLower vs v = true ↔
      (v : ℝ) < npMean vs - 3 * Real.sqrt (npVar vs) := by
  have hvar : (0 : ℝ) ≤ (npVar vs : ℝ) := by exact_mod_cast npVar_nonneg vs
  have hσ : 0 ≤ Real.sqrt (npVar vs) := Real.sqrt_nonneg _
  have hsq : Real.sqrt (npVar vs) ^ 2 = (npVar vs : ℝ) := Real.sq_sqrt hvar
  unfold belowLower
  rw [decide_eq_true_iff]
  constructor
  · rintro ⟨h1, h2⟩
    have h1r : (v : ℝ) < (npMean vs : ℝ) := by exact_mod_cast h1
    have h2r : 9 * (npVar vs : ℝ) < ((npMean vs : ℝ) - v) ^ 2 := by
      have h2' : ((9 * npVar vs : ℚ) : ℝ) < (((npMean vs - v) ^ 2 : ℚ) : ℝ) := by
        exact_mod_cast h2
      push_cast at h2'
      linarith [h2']
    nlinarith [h2r, hsq, hσ, h1r]
  · intro h
    have h1r : (v : ℝ) < (npMean vs : ℝ) := by nlinarith [hσ]
    have h1 : v < npMean vs := by exact_mod_cast h1r
    refine ⟨h1, ?_⟩
    have h2r : 9 * (npVar vs : ℝ) < ((npMean vs : ℝ) - v) ^ 2 := by
      nlinarith [hsq, hσ]
    have : ((9 * npVar vs : ℚ) : ℝ) < (((npMean vs - v) ^ 2 : ℚ) : ℝ) := by
      push_cast
      linarith [h2r]
    exact_mod_cast this

/-- Real-number reading of `aboveUpper`: it decides `v > mean + 3·√var`. -/
theorem aboveUpper_iff_real (vs : List ℚ) (v : ℚ) :
    aboveUpper vs v = true ↔
      (npMean vs : ℝ) + 3 * Real.sqrt (npVar vs) < v := by
  have hvar : (0 : ℝ) ≤ (npVar vs : ℝ) := by exact_mod_cast npVar_nonneg vs
  have hσ : 0 ≤ Real.sqrt (npVar vs) := Real.sqrt_nonneg _
  have hsq : Real.sqrt (npVar vs) ^ 2 = (npVar vs : ℝ) := Real.sq_sqrt hvar
  unfold aboveUpper
  rw [decide_eq_true_iff]
  constructor
  · rintro ⟨h1, h2⟩
    have h1r : (npMean vs : ℝ) < (v : ℝ) := by exact_mod_cast h1
    have h2r : 9 * (npVar vs : ℝ) < ((v : ℝ) - npMean vs) ^ 2 := by
      have h2' : ((9 * npVar vs : ℚ) : ℝ) < (((v - npMean vs) ^ 2 : ℚ) : ℝ) := by
        exact_mod_cast h2
      push_cast at h2'
      linarith [h2']
    nlinarith [h2r, hsq, hσ, h1r]
  · intro h
    have h1r : (npMean vs : ℝ) < (v : ℝ) := by nlinarith [hσ]
    have h1 : npMean vs < v := by exact_mod_cast h1r
    refine ⟨h1, ?_⟩
    have h2r : 9 * (npVar vs : ℝ) < ((v : ℝ) - npMean vs) ^ 2 := by
      nlinarith [hsq, hσ]
    have : ((9 * npVar vs : ℚ) : ℝ) < (((v - npMean vs) ^ 2 : ℚ) : ℝ) := by
      push_cast
      linarith [h2r]
    exact_mod_cast this

/-- C7: `OutlierDetector.mean_detection` returns exactly the positions of the
entries that lie strictly outside the interval `[mean - 3·stddev, mean + 3·stddev]`
of the list (each position listed once), and no others. -/
theorem C7_mean_detection_exact (vs : List ℚ) :
    (∀ i : ℕ, i ∈ mean_detection vs ↔
      ∃ h : i < vs.length,
        ((vs.get ⟨i, h⟩ : ℝ) < npMean vs - 3 * Real.sqrt (npVar vs) ∨
          (npMean vs : ℝ) + 3 * Real.sqrt (npVar vs) < vs.get ⟨i, h⟩)) ∧
    (mean_detection vs).Nodup := by
  constructor
  · intro i
    unfold mean_detection
    rw [List.mem_append, List.mem_filter, List.mem_filter, List.mem_range]
    constructor
    · rintro (⟨hi, hb⟩ | ⟨hi, hb⟩)
      · refine ⟨hi, Or.inl ?_⟩
        rw [← List.getD_eq_get vs 0 hi]
        exact (belowLower_iff_real vs _).1 hb
      · refine ⟨hi, Or.inr ?_⟩
        rw [← List.getD_eq_get vs 0 hi]
        exact (aboveUpper_iff_real vs _).1 hb
    · rintro ⟨hi, hb | hb⟩
      · refine Or.inl ⟨hi, ?_⟩
        rw [← List.getD_eq_get vs 0 hi] at hb
        exact (belowLower_iff_real vs _).2 hb
      · refine Or.inr ⟨hi, ?_⟩
        rw [← List.getD_eq_get vs 0 hi] at hb
        exact (aboveUpper_iff_real vs _).2 hb
  · unfold mean_detection
    apply List.Nodup.append
    · exact (List.nodup_range _).filter _
    · exact (List.nodup_range _).filter _
    · intro i hi hj
      rw [List.mem_filter] at hi hj
      have h1 := (belowLower_iff_real vs _).1 hi.2
      have h2 := (aboveUpper_iff_real vs _).1 hj.2
      have hσ : 0 ≤ Real.sqrt (npVar vs) := Real.sqrt_nonneg _
      linarith

/-! ## Under-sampling and `sample_data`

Source (`UnderSampler.random_sample`):
```
data = self.data.sample(frac=(current_ratio/target_ratio), random_state=1021)
```
and (`sample_data`):
```
current_ratio = major_data.shape[0] / float(minor_data.shape[0])
target_ratio = 1.5
if method in ['both', 'under-sampling']:
    major_data = under_sampler.random_sample(current_ratio, target_ratio)
    data = pd.concat([major_data, minor_data], ignore_index=True)
if method in ['both', 'over-sampling']:
    data = over_sampler.smote_sample()
```
Sampling is modelled at the level of row counts, which is what the ratio
claims are about: `DataFrame.sample(frac=f)` draws `int(round(f * n))` rows
without replacement (the draw is deterministic for the fixed
`random_state=1021`), and raises `ValueError` when the requested size exceeds
the population, since `replace=False`. -/

/-- Row count of `DataFrame.sample(frac=frac, random_state=...)` on an
`n`-row frame; `.error ()` models the `ValueError` raised when
`int(round(frac * n))` is negative or exceeds `n` (`replace=False`). -/
def pandasSampleSize (n : ℕ) (frac : ℚ) : Except Unit ℕ :=
  let k := pythonRound (frac * n)
  if k < 0 ∨ (n : ℤ) < k then .error () else .ok k.toNat

/-- `UnderSampler.random_sample`, by row count: the held frame has `nrows`
rows and is sampled with `frac = current_ratio / target_ratio`. -/
def random_sample (nrows : ℕ) (current_ratio target_ratio : ℚ) : Except Unit ℕ :=
  pandasSampleSize nrows (current_ratio / target_ratio)

/-- `OverSampler.smote_sample` (`SMOTE(ratio='minority', random_state=1021)`),
by class counts: the smaller class is over-sampled with synthetic rows until
both classes have the larger class's count. -/
def smote_counts (nMaj nMin : ℕ) : ℕ × ℕ := (max nMaj nMin, max nMaj nMin)

/-- `sample_data`, by class counts.  `nMaj`/`nMin` are the counts of the most
and second-most frequent target value (the source reads them off
`value_counts()`); `.error ()` models the `ZeroDivisionError` on an absent
second class and the `ValueError` propagated out of `DataFrame.sample`. -/
def sample_data (nMaj nMin : ℕ) (method : String) : Except Unit (ℕ × ℕ) :=
  if nMin = 0 then .error () else
  let current_ratio : ℚ := (nMaj : ℚ) / (nMin : ℚ)
  let target_ratio : ℚ := 3 / 2
  match (if method = "both" ∨ method = "under-sampling" then
          (random_sample nMaj current_ratio target_ratio).map (fun m => (m, nMin))
        else .ok (nMaj, nMin)) with
  | .error e => .error e
  | .ok (a, b) =>
      if method = "both" ∨ method = "over-sampling" then .ok (smote_counts a b)
      else .ok (a, b)

/-- C1: the claim says `random_sample(current_ratio, target_ratio)` keeps the
fraction `target_ratio/current_ratio` of the rows; the code passes
`frac = current_ratio/target_ratio` to `DataFrame.sample`.  At the pipeline's
own inputs (100 majority rows, `current_ratio = 10`, `target_ratio = 1.5`) the
code requests `int(round(100 * 20/3)) = 667 > 100` rows and `DataFrame.sample`
raises `ValueError`, while the documented fraction would keep 15 rows. -/
theorem C1_random_sample_inverted_fraction :
    random_sample 100 10 (3/2) = .error () ∧
      pandasSampleSize 100 ((3/2) / 10) = .ok 15 := by
  have h1 : pythonRound (10 / (3/2 : ℚ) * 100) = 667 := by
    unfold pythonRound; norm_num
  have h2 : pythonRound ((3/2 : ℚ) / 10 * 100) = 15 := by
    unfold pythonRound; norm_num
  constructor
  · simp [random_sample, pandasSampleSize, h1]
  · simp [pandasSampleSize, h2]

/-- C2: on 100 majority / 10 minority rows, `sample_data(..., method='both')`
raises inside the under-sampling phase (`frac = 20/3 > 1`), so no rebalanced
table (ratio ≈ 1:1) is returned; the claim's intended path (keep
`round(0.15·100) = 15` majority rows, then SMOTE the 10 minority rows up) would
end at counts `(15, 15)`. -/
theorem C2_sample_data_both_raises :
    sample_data 100 10 "both" = .error () ∧ smote_counts 15 10 = (15, 15) := by
  have h1 : pythonRound ((100 : ℚ) / 10 / (3/2) * 100) = 667 := by
    unfold pythonRound; norm_num
  constructor
  · simp [sample_data, random_sample, pandasSampleSize, h1, Except.map]
  · rfl

/-! ## `wash_data`

Source:
```
data = data.drop_duplicates(keep='first')
percent = 0.6
data = data.dropna(thresh=int(data.shape[1]*percent))
outlier_detector = OutlierDetector(data.copy(), target_column, id_columns)
outlier_index = outlier_detector.isolation_forest()
if not outlier:
    print('The row index of outliers is as follows: %s' % (str(outlier_index)))
else:
    data.drop(outlier_index, axis=0, inplace=True)
feature_column = data.columns.tolist()
for element in id_columns:
    feature_column.remove(element)
data = data[feature_column]
```
The detection result `outlier_index` is a list of *positions* (produced by
`mean_detection` over the per-row scores of an `IsolationForest` fitted on the
cleaned copy).  The forest itself is external ML-library numerics, so
`wash_data` below is parameterised by that list; every theorem quantifies over
it (or instantiates it), never assuming anything about its contents beyond
what the source guarantees.  `DataFrame.drop(labels, axis=0)` removes the rows
whose *index label* is listed and raises when a listed label is absent from
the index; `drop_duplicates`/`dropna` keep the original labels of the
surviving rows, so labels and positions diverge as soon as a row is removed. -/

/-- A row-oriented dataframe: column names, plus rows tagged with their integer
index label (pandas keeps labels stable across row-dropping operations). -/
structure Table where
  cols : List String
  rows : List (ℕ × Row)
deriving DecidableEq, Repr

/-- `DataFrame.drop_duplicates(keep='first')` on labelled rows: keep the first
occurrence of every distinct cell-row.  (`seen` accumulates the cell-rows kept
so far.) -/
def dropDuplicatesAux (seen : List Row) : List (ℕ × Row) → List (ℕ × Row)
  | [] => []
  | r :: rest =>
    if r.2 ∈ seen then dropDuplicatesAux seen rest
    else r :: dropDuplicatesAux (r.2 :: seen) rest

/-- `DataFrame.drop_duplicates(keep='first')`. -/
def dropDuplicates (rows : List (ℕ × Row)) : List (ℕ × Row) :=
  dropDuplicatesAux [] rows

theorem mem_dropDuplicatesAux {seen : List Row} {rows : List (ℕ × Row)}
    {r : ℕ × Row} (h : r ∈ dropDuplicatesAux seen rows) :
    r ∈ rows ∧ r.2 ∉ seen := by
  induction rows generalizing seen with
  | nil => simp [dropDuplicatesAux] at h
  | cons a rest ih =>
    unfold dropDuplicatesAux at h
    split at h
    · have := ih h
      exact ⟨List.mem_cons_of_mem _ this.1, this.2⟩
    · rcases List.mem_cons.1 h with rfl | h2
      · exact ⟨List.mem_cons_self _ _, by assumption⟩
      · have := ih h2
        refine ⟨List.mem_cons_of_mem _ this.1, fun hc => this.2 ?_⟩
        exact List.mem_cons_of_mem _ hc

theorem pairwise_dropDuplicatesAux (seen : List Row) (rows : List (ℕ × Row)) :
    (dropDuplicatesAux seen rows).Pairwise (fun a b => a.2 ≠ b.2) := by
  induction rows generalizing seen with
  | nil => simp [dropDuplicatesAux]
  | cons a rest ih =>
    unfold dropDuplicatesAux
    split
    · exact ih seen
    · refine List.Pairwise.cons ?_ (ih _)
      intro b hb
      have hmem := mem_dropDuplicatesAux hb
      intro hEq
      exact hmem.2 (hEq ▸ List.mem_cons_self _ _)

/-- No two rows kept by `drop_duplicates(keep='first')` have equal cells. -/
theorem pairwise_dropDuplicates (rows : List (ℕ × Row)) :
    (dropDuplicates rows).Pairwise (fun a b => a.2 ≠ b.2) :=
  pairwise_dropDuplicatesAux [] rows

/-- `int(ncols * 0.6)`: the row-count threshold handed to
`DataFrame.dropna(thresh=...)`.  In IEEE-754 this evaluates to
`⌊0.6 · ncols⌋ = 3·ncols/5` for every realistic column count (checked: the
rounding error of the product stays below half an ulp). -/
def washThresh (ncols : ℕ) : ℕ := 3 * ncols / 5

/-- The rows of `data` surviving the deduplication and sparse-row steps of
`wash_data` (`dropna(thresh=k)` keeps a row iff it has at least `k`
non-missing entries). -/
def washKept (t : Table) : List (ℕ × Row) :=
  (dropDuplicates t.rows).filter
    (fun r => washThresh t.cols.length ≤ (r.2).nonNACount)

/-- `DataFrame.drop(labels, axis=0)`: removes all rows whose index label is
listed; raises (`ValueError`/`KeyError`) if a listed label is absent. -/
def dropLabels (rows : List (ℕ × Row)) (labels : List ℕ) :
    Except Unit (List (ℕ × Row)) :=
  if labels.all (fun l => rows.any (fun r => r.1 = l)) then
    .ok (rows.filter (fun r => decide (r.1 ∉ labels)))
  else .error ()

/-- The `for element in id_columns: feature_column.remove(element)` loop:
removes the first occurrence of each id column in turn, raising `ValueError`
when one is absent. -/
def removeCols (cols : List String) : List String → Except Unit (List String)
  | [] => .ok cols
  | i :: rest => if i ∈ cols then removeCols (cols.erase i) rest else .error ()

/-- `data[feature_column]` applied to one row: select the cells of the named
columns in the requested order. -/
def projectRow (cols : List String) (featureCols : List String) (r : Row) : Row :=
  featureCols.map (fun c => r.getD (cols.indexOf c) none)

/-- `wash_data(data, target_column, id_columns, outlier)`.  `outlier_index`
is the position list returned by `OutlierDetector.isolation_forest()` on the
cleaned copy (see the section comment); `target_column` only reaches the
detector, so it does not appear here. -/
def wash_data (t : Table) (id_columns : List String) (outlier : Bool)
    (outlier_index : List ℕ) : Except Unit Table :=
  let kept := washKept t
  match (if outlier then dropLabels kept outlier_index else .ok kept) with
  | .error e => .error e
  | .ok kept2 =>
    match removeCols t.cols id_columns with
    | .error e => .error e
    | .ok fc => .ok ⟨fc, kept2.map (fun r => (r.1, projectRow t.cols fc r.2))⟩

/-- Success shape of `wash_data` with `outlier=False`: the result is the
projection of *all* surviving rows, whatever the detector reported. -/
theorem wash_data_false_ok {t : Table} {ids : List String} {oi : List ℕ}
    {t' : Table} (h : wash_data t ids false oi = .ok t') :
    ∃ fc, removeCols t.cols ids = .ok fc ∧
      t'.rows = (washKept t).map (fun r => (r.1, projectRow t.cols fc r.2)) := by
  unfold wash_data at h
  cases hrc : removeCols t.cols ids with
  | error e => rw [hrc] at h; exact absurd h (by simp)
  | ok fc =>
    rw [hrc] at h
    simp only [Bool.false_eq_true, if_false, Except.ok.injEq] at h
    exact ⟨fc, rfl, by rw [← h]⟩

/-- Success shape of `wash_data` with `outlier=True`: every flagged value is
an index label of a surviving row, and the result drops exactly the surviving
rows whose label is flagged. -/
theorem wash_data_true_ok {t : Table} {ids : List String} {oi : List ℕ}
    {t' : Table} (h : wash_data t ids true oi = .ok t') :
    (∀ l ∈ oi, ∃ r ∈ washKept t, r.1 = l) ∧
      ∃ fc, removeCols t.cols ids = .ok fc ∧
        t'.rows = ((washKept t).filter (fun r => decide (r.1 ∉ oi))).map
          (fun r => (r.1, projectRow t.cols fc r.2)) := by
  unfold wash_data at h
  simp only [if_true] at h
  unfold dropLabels at h
  by_cases hall : oi.all (fun l => (washKept t).any (fun r => r.1 = l)) = true
  · rw [if_pos hall] at h
    constructor
    · intro l hl
      have := (List.all_eq_true.1 hall) l hl
      obtain ⟨r, hr, hrl⟩ := List.any_eq_true.1 this
      exact ⟨r, hr, of_decide_eq_true hrl⟩
    · cases hrc : removeCols t.cols ids with
      | error e => rw [hrc] at h; exact absurd h (by simp)
      | ok fc =>
        rw [hrc] at h
        simp only [Except.ok.injEq] at h
        exact ⟨fc, rfl, by rw [← h]⟩
  · rw [if_neg hall] at h
    exact absurd h (by simp)

/-- C3 (amended): the rows surviving `wash_data`'s duplicate-removal and
sparse-row steps are pairwise distinct as full rows, and each carries at least
`int(0.6 · ncols)` non-missing values; the returned table is their projection
to the non-id columns.  (The claim as stated fails on two points exhibited in
`C3_counterexample`: `int(0.6·ncols)` can lie strictly below `0.6·ncols`, so a
returned row may have more than 40% of the input columns missing, and
projecting away id columns can equate rows that were distinct as full rows.) -/
theorem C3_wash_data_dedup_thresh (t : Table) (ids : List String) (oi : List ℕ)
    (t' : Table) (h : wash_data t ids false oi = .ok t') :
    (washKept t).Pairwise (fun a b => a.2 ≠ b.2) ∧
    (∀ r ∈ washKept t, washThresh t.cols.length ≤ (r.2).nonNACount) ∧
    ∃ fc, removeCols t.cols ids = .ok fc ∧
      t'.rows = (washKept t).map (fun r => (r.1, projectRow t.cols fc r.2)) := by
  refine ⟨?_, ?_, wash_data_false_ok h⟩
  · exact List.Pairwise.sublist (List.filter_sublist _) (pairwise_dropDuplicates _)
  · intro r hr
    unfold washKept at hr
    exact of_decide_eq_true (List.mem_filter.1 hr).2

/-- C3, witness: the amended theorem applied to a concrete one-row table. -/
theorem C3_wash_data_dedup_thresh_witness :
    (washKept ⟨["a"], [(0, [some (Val.num 1)])]⟩).Pairwise (fun a b => a.2 ≠ b.2) ∧
    (∀ r ∈ washKept ⟨["a"], [(0, [some (Val.num 1)])]⟩,
      washThresh 1 ≤ (r.2).nonNACount) ∧
    ∃ fc, removeCols ["a"] [] = .ok fc ∧
      [(0, [some (Val.num 1)])] =
        (washKept ⟨["a"], [(0, [some (Val.num 1)])]⟩).map
          (fun r => (r.1, projectRow ["a"] fc r.2)) :=
  C3_wash_data_dedup_thresh ⟨["a"], [(0, [some (Val.num 1)])]⟩ [] []
    ⟨["a"], [(0, [some (Val.num 1)])]⟩ rfl

/-- C3, counterexample to the claim as stated.  First part: on a 3-column
table, `thresh = int(3*0.6) = 1`, so a row with 2 of 3 entries missing
(66.7% > 40%) is returned.  Second part: two rows differing only in the id
column are both kept, and after the id column is dropped the returned table
contains two exactly equal rows. -/
theorem C3_counterexample :
    (wash_data ⟨["a", "b", "c"], [(0, [some (Val.num 1), none, none])]⟩ [] false [] =
        .ok ⟨["a", "b", "c"], [(0, [some (Val.num 1), none, none])]⟩ ∧
      Row.naCount [some (Val.num 1), none, none] = 2 ∧
      (2 : ℚ) / 3 > 2 / 5) ∧
    (wash_data ⟨["id", "x"],
          [(0, [some (Val.num 1), some (Val.num 5)]),
            (1, [some (Val.num 2), some (Val.num 5)])]⟩ ["id"] false [] =
        .ok ⟨["x"], [(0, [some (Val.num 5)]), (1, [some (Val.num 5)])]⟩) := by
  exact ⟨⟨rfl, rfl, by norm_num⟩, rfl⟩

/-- C8 (amended): with `outlier=False` the detection result is only printed —
the returned rows are all the surviving rows, whatever was flagged; with
`outlier=True` the code removes the surviving rows whose *index label* occurs
in the flagged list, and this only succeeds when every flagged value is such a
label (otherwise `DataFrame.drop` raises — so a "flagged row" at a position
whose label is absent is not dropped but turned into an exception, see
`C8_counterexample`). -/
theorem C8_outlier_policy :
    (∀ (t : Table) (ids : List String) (oi : List ℕ) (t' : Table),
        wash_data t ids false oi = .ok t' →
        ∃ fc, removeCols t.cols ids = .ok fc ∧
          t'.rows = (washKept t).map (fun r => (r.1, projectRow t.cols fc r.2))) ∧
    (∀ (t : Table) (ids : List String) (oi : List ℕ) (t' : Table),
        wash_data t ids true oi = .ok t' →
        (∀ l ∈ oi, ∃ r ∈ washKept t, r.1 = l) ∧
        ∃ fc, removeCols t.cols ids = .ok fc ∧
          t'.rows = ((washKept t).filter (fun r => decide (r.1 ∉ oi))).map
            (fun r => (r.1, projectRow t.cols fc r.2))) :=
  ⟨fun _ _ _ _ h => wash_data_false_ok h, fun _ _ _ _ h => wash_data_true_ok h⟩

/-- C8, witness: both branches applied at concrete inputs. -/
theorem C8_outlier_policy_witness :
    (∃ fc, removeCols ["x"] [] = .ok fc ∧
      [(5, [some (Val.num 1)]), (7, [some (Val.num 2)])] =
        (washKept ⟨["x"], [(5, [some (Val.num 1)]), (7, [some (Val.num 2)])]⟩).map
          (fun r => (r.1, projectRow ["x"] fc r.2))) ∧
    ((∀ l ∈ [5], ∃ r ∈ washKept ⟨["x"], [(5, [some (Val.num 1)]), (7, [some (Val.num 2)])]⟩,
        r.1 = l) ∧
      ∃ fc, removeCols ["x"] [] = .ok fc ∧
        [(7, [some (Val.num 2)])] =
          ((washKept ⟨["x"], [(5, [some (Val.num 1)]), (7, [some (Val.num 2)])]⟩).filter
              (fun r => decide (r.1 ∉ [5]))).map
            (fun r => (r.1, projectRow ["x"] fc r.2))) :=
  ⟨C8_outlier_policy.1 ⟨["x"], [(5, [some (Val.num 1)]), (7, [some (Val.num 2)])]⟩ [] [9]
      ⟨["x"], [(5, [some (Val.num 1)]), (7, [some (Val.num 2)])]⟩ rfl,
    C8_outlier_policy.2 ⟨["x"], [(5, [some (Val.num 1)]), (7, [some (Val.num 2)])]⟩ [] [5]
      ⟨["x"], [(7, [some (Val.num 2)])]⟩ rfl⟩

/-- C8, counterexample to the claim as stated: row 1 is removed as a
duplicate, so the surviving labels are 0 and 2; detection's flagged position 1
denotes the surviving row labelled 2, but `data.drop([1])` looks for *label* 1
and raises — the flagged row is not dropped, the call fails. -/
theorem C8_counterexample :
    wash_data ⟨["x"], [(0, [some (Val.num 1)]), (1, [some (Val.num 1)]),
        (2, [some (Val.num 2)])]⟩ [] true [1] = .error () := by
  rfl

/-- Removal of rows *located at* the listed positions (what the claim contrasts
with the label-based `DataFrame.drop` that the code actually performs). -/
def removeAtPositions (rows : List (ℕ × Row)) (ps : List ℕ) : List (ℕ × Row) :=
  (rows.enum.filter (fun p => decide (p.1 ∉ ps))).map Prod.snd

theorem filter_label_eq_removeAtPositions_aux (oi : List ℕ) :
    ∀ (k : ℕ) (rows : List (ℕ × Row)),
      rows.map Prod.fst = List.range' k rows.length →
      rows.filter (fun r => decide (r.1 ∉ oi)) =
        ((List.enumFrom k rows).filter (fun p => decide (p.1 ∉ oi))).map Prod.snd := by
  intro k rows
  induction rows generalizing k with
  | nil => intro _; rfl
  | cons r rest ih =>
    intro h
    simp only [List.map_cons, List.length_cons, List.range'_succ, List.cons.injEq] at h
    obtain ⟨hk, hrest⟩ := h
    simp only [List.enumFrom, List.filter_cons, hk]
    have ih' := ih (k + 1) hrest
    simp only [decide_not] at ih'
    by_cases hmem : k ∈ oi
    · simp [hmem, ih']
    · simp [hmem, ih']

/-- C9: with `outlier=True`, `wash_data` removes the surviving rows whose
*index label* occurs in the flagged position list (first conjunct); when the
surviving rows' labels are exactly the positions `0..n-1`, label-based removal
coincides with position-based removal (second conjunct); and on an input whose
labels differ from the positions, the code's result differs from removing the
rows located at the flagged positions (third conjunct: the code keeps the row
labelled 0 — cells `[2]` — while position-based removal would keep the row
labelled 1 — cells `[1]`). -/
theorem C9_drop_by_label :
    (∀ (t : Table) (ids : List String) (oi : List ℕ) (t' : Table),
        wash_data t ids true oi = .ok t' →
        ∃ fc, removeCols t.cols ids = .ok fc ∧
          t'.rows = ((washKept t).filter (fun r => decide (r.1 ∉ oi))).map
            (fun r => (r.1, projectRow t.cols fc r.2))) ∧
    (∀ (rows : List (ℕ × Row)) (oi : List ℕ),
        rows.map Prod.fst = List.range rows.length →
        rows.filter (fun r => decide (r.1 ∉ oi)) = removeAtPositions rows oi) ∧
    (wash_data ⟨["x"], [(1, [some (Val.num 1)]), (0, [some (Val.num 2)])]⟩ [] true [1] =
        .ok ⟨["x"], [(0, [some (Val.num 2)])]⟩ ∧
      removeAtPositions
          (washKept ⟨["x"], [(1, [some (Val.num 1)]), (0, [some (Val.num 2)])]⟩) [1] =
        [(1, [some (Val.num 1)])]) := by
  refine ⟨fun _ _ _ _ h => (wash_data_true_ok h).2, fun rows oi h => ?_, rfl, rfl⟩
  unfold removeAtPositions List.enum
  exact filter_label_eq_removeAtPositions_aux oi 0 rows
    (by rw [h, List.range_eq_range'])

/-- C9, witness: the first conjunct applied at a concrete input. -/
theorem C9_drop_by_label_witness :
    ∃ fc, removeCols ["x"] [] = .ok fc ∧
      ([] : List (ℕ × Row)) =
        ((washKept ⟨["x"], [(3, [some (Val.num 1)])]⟩).filter
            (fun r => decide (r.1 ∉ [3]))).map
          (fun r => (r.1, projectRow ["x"] fc r.2)) :=
  C9_drop_by_label.1 ⟨["x"], [(3, [some (Val.num 1)])]⟩ [] [3] ⟨["x"], []⟩ rfl

/-! ## `NaFiller`

Source loop bodies (`fit_transform` / `transform`):
```
if data.dtypes[column] not in ['float', 'int']:
    data[column] = data[column].fillna('missing')
else:
    data[column + '_flag'] = np.zeros(shape=len(data[column]))
    # fit_transform:
    data[column + '_flag'][np.where(data[column].isnull().values == True)[0].tolist()] = 1
    imp = pp.Imputer(missing_values='NaN', strategy=self.numeric_method, axis=0)
    data[column] = imp.fit_transform(data[[column]])
    self.num_imputer_dic[column] = imp
    # transform:
    data[column + '_flag'][data[column][data[column].isnull().values is True].index.tolist()] = 1
    imp = self.num_imputer_dic[column]
    data[column] = imp.transform(data[column])
```
Modelling notes, in evaluation order:
* A column's dtype is a `Bool` (`numeric` ↔ `dtypes[c] in ['float','int']`,
  i.e. the default `float64`/`int64`).
* `np.where(...isnull()...)[0]` yields *positions*; the subsequent `Series`
  item assignment interprets them as *index labels* (chained assignment on a
  freshly created column block propagates into the frame).  If some position
  is not a label of the index, pandas raises (`KeyError ... not in index`).
* `Imputer.fit_transform(data[[c]])` computes the mean (or median) of the
  non-missing entries; on an all-NaN column sklearn's `Imputer` discards the
  feature and the column assignment of the now mis-shaped result raises, so
  that case is an error.  Era pandas squeezes the `(n,1)` result into the
  column.
* In `transform`, `data[column].isnull().values is True` is an *identity*
  comparison of an ndarray against the `True` singleton: it is always the
  scalar `False`.  Indexing a `Series` with the scalar `False` is not an
  (empty) boolean mask: pandas treats it as a label lookup of `0`
  (`hash(False) == hash(0)`), which returns a bare scalar — whose `.index`
  attribute does not exist (`AttributeError`) — or raises `KeyError` when `0`
  is not in the index.  Either way the statement raises, *after* the all-zero
  flag column has already been written into the frame, and *before* the
  imputer dictionary is consulted; the remaining columns are never processed.
-/

/-- One named dataframe column: its dtype class and its cells (aligned with
the frame's index labels). -/
structure Column where
  numeric : Bool
  cells : List Cell
deriving DecidableEq, Repr

/-- Association-list core of column lookup (`data[name]`). -/
def lookupList : List (String × Column) → String → Option Column
  | [], _ => none
  | p :: rest, name => if p.1 = name then some p.2 else lookupList rest name

/-- Association-list core of column assignment (`data[name] = col`): replace
in place, or append as the last column. -/
def setColList : List (String × Column) → String → Column → List (String × Column)
  | [], name, col => [(name, col)]
  | p :: rest, name, col =>
    if p.1 = name then (name, col) :: rest else p :: setColList rest name col

/-- A column-oriented dataframe, as `NaFiller` sees it: the index labels and
the named columns (each of the index's length in a well-formed frame). -/
structure Frame where
  index : List ℕ
  cols : List (String × Column)
deriving DecidableEq, Repr

/-- `data[name]`. -/
def Frame.lookup (t : Frame) (name : String) : Option Column :=
  lookupList t.cols name

/-- `data[name] = col`. -/
def Frame.setCol (t : Frame) (name : String) (col : Column) : Frame :=
  ⟨t.index, setColList t.cols name col⟩

/-- `Series.fillna('missing')`. -/
def fillnaMissing (cells : List Cell) : List Cell :=
  cells.map (fun c => match c with
    | none => some (Val.str "missing")
    | some v => some v)

/-- `np.median` of a list (sort; middle element, or mean of the two middle
elements). -/
def npMedian (vs : List ℚ) : ℚ :=
  let s := vs.mergeSort (fun a b => a ≤ b)
  if vs.length % 2 = 1 then s.getD (vs.length / 2) 0
  else (s.getD (vs.length / 2 - 1) 0 + s.getD (vs.length / 2) 0) / 2

/-- The numeric values of a column's non-missing cells (what `Imputer`
computes its statistic over). -/
def numericCells (cells : List Cell) : List ℚ :=
  cells.filterMap (fun c => match c with
    | some (Val.num q) => some q
    | _ => none)

/-- `NaFiller.__init__`: the configured numeric strategy and the
imputer-per-column dictionary (a fitted `Imputer` is its fill value). -/
structure NaFiller where
  numeric_method : String
  num_imputer_dic : List (String × ℚ)
deriving DecidableEq, Repr

/-- `self.num_imputer_dic[column] = imp`. -/
def dicInsert : List (String × ℚ) → String → ℚ → List (String × ℚ)
  | [], name, v => [(name, v)]
  | p :: rest, name, v =>
    if p.1 = name then (name, v) :: rest else p :: dicInsert rest name v

/-- One iteration of the `fit_transform` loop (see the section comment for
the error cases: absent column, flag label missing from the index, all-NaN
numeric column). -/
def NaFiller.fitStep (f : NaFiller) (t : Frame) (c : String) :
    Frame × NaFiller × Option Unit :=
  match t.lookup c with
  | none => (t, f, some ())
  | some col =>
    if col.numeric = false then
      (t.setCol c ⟨col.numeric, fillnaMissing col.cells⟩, f, none)
    else
      let zeros : List Cell := col.cells.map (fun _ => some (Val.num 0))
      let t1 := t.setCol (c ++ "_flag") ⟨true, zeros⟩
      let missPos := (List.range col.cells.length).filter
          (fun i => (col.cells.getD i none).isNA)
      if missPos.all (fun p => t.index.contains p) = false then (t1, f, some ())
      else
        let flag : List Cell :=
          t.index.map (fun l => some (Val.num (if l ∈ missPos then 1 else 0)))
        let t2 := t1.setCol (c ++ "_flag") ⟨true, flag⟩
        let nums := numericCells col.cells
        if nums.isEmpty then (t2, f, some ())
        else
          let fill := if f.numeric_method = "median" then npMedian nums else npMean nums
          let filled : List Cell := col.cells.map (fun cl => match cl with
            | none => some (Val.num fill)
            | some v => some v)
          (t2.setCol c ⟨col.numeric, filled⟩,
            ⟨f.numeric_method, dicInsert f.num_imputer_dic c fill⟩, none)

/-- `NaFiller.fit_transform(data, column_list)`; the `Option Unit` component
records whether an exception aborted the loop (the frame component is the
mutated state at that point — mutation is in place in the source). -/
def NaFiller.fit_transform (f : NaFiller) (t : Frame) :
    List String → Frame × NaFiller × Option Unit
  | [] => (t, f, none)
  | c :: rest =>
    match NaFiller.fitStep f t c with
    | (t', f', some e) => (t', f', some e)
    | (t', f', none) => NaFiller.fit_transform f' t' rest

/-- One iteration of the `transform` loop.  For a numeric column the all-zero
flag column is written and then the flagging statement raises (see the
section comment), whatever the imputer dictionary contains. -/
def NaFiller.transformStep (f : NaFiller) (t : Frame) (c : String) :
    Frame × Option Unit :=
  match t.lookup c with
  | none => (t, some ())
  | some col =>
    if col.numeric = false then
      (t.setCol c ⟨col.numeric, fillnaMissing col.cells⟩, none)
    else
      let zeros : List Cell := col.cells.map (fun _ => some (Val.num 0))
      (t.setCol (c ++ "_flag") ⟨true, zeros⟩, some ())

/-- `NaFiller.transform(data, column_list)`. -/
def NaFiller.transform (f : NaFiller) (t : Frame) :
    List String → Frame × Option Unit
  | [] => (t, none)
  | c :: rest =>
    match NaFiller.transformStep f t c with
    | (t', some e) => (t', some e)
    | (t', none) => NaFiller.transform f t' rest

theorem lookupList_setColList_self (l : List (String × Column)) (name : String)
    (col : Column) : lookupList (setColList l name col) name = some col := by
  induction l with
  | nil => simp [setColList, lookupList]
  | cons p rest ih =>
    unfold setColList
    by_cases h : p.1 = name
    · simp [h, lookupList]
    · simp [h, lookupList, ih]

theorem lookupList_setColList_ne (l : List (String × Column)) {a b : String}
    (col : Column) (h : a ≠ b) :
    lookupList (setColList l b col) a = lookupList l a := by
  have hba : ¬ (b = a) := fun hc => h hc.symm
  induction l with
  | nil => simp [setColList, lookupList, hba]
  | cons p rest ih =>
    unfold setColList
    by_cases hp : p.1 = b
    · simp [hp, lookupList, hba]
    · simp [hp, lookupList, ih]

theorem Frame.lookup_setCol_self (t : Frame) (name : String) (col : Column) :
    (t.setCol name col).lookup name = some col :=
  lookupList_setColList_self t.cols name col

theorem Frame.lookup_setCol_ne (t : Frame) {a b : String} (col : Column)
    (h : a ≠ b) : (t.setCol b col).lookup a = t.lookup a :=
  lookupList_setColList_ne t.cols col h

theorem Frame.setCol_index (t : Frame) (name : String) (col : Column) :
    (t.setCol name col).index = t.index := rfl

/-- A string never equals itself with the `"_flag"` suffix appended. -/
theorem ne_self_append_flag (c : String) : c ≠ c ++ "_flag" := by
  intro h
  have hlen := congrArg String.length h
  rw [String.length_append] at hlen
  have h5 : "_flag".length = 5 := by decide
  omega

/-- Appending `"_flag"` is injective. -/
theorem append_flag_inj {a b : String} (h : a ++ "_flag" = b ++ "_flag") :
    a = b := by
  have hd := congrArg String.data h
  simp only [String.data_append] at hd
  exact String.ext (List.append_cancel_right hd)

/-- A listed column makes `NaFiller.transform` raise: it is absent from the
frame (`KeyError`) or numeric (the flagging statement raises; see the section
comment on `NaFiller`). -/
def badCol (t : Frame) (c : String) : Prop :=
  t.lookup c = none ∨ ∃ col, t.lookup c = some col ∧ col.numeric = true

theorem badCol_setCol_categorical {t : Frame} {d : String} {col : Column}
    (hd : t.lookup d = some col) (hnum : col.numeric = false) (x : List Cell)
    (a : String) :
    badCol (t.setCol d ⟨col.numeric, x⟩) a ↔ badCol t a := by
  unfold badCol
  by_cases had : a = d
  · subst had
    rw [Frame.lookup_setCol_self, hd]
    constructor
    · rintro (h | ⟨col', hc', hn'⟩)
      · exact absurd h (by simp)
      · simp only [Option.some.injEq] at hc'
        rw [← hc', hnum] at hn'
        exact absurd hn' (by simp)
    · rintro (h | ⟨col', hc', hn'⟩)
      · exact absurd h (by simp)
      · simp only [Option.some.injEq] at hc'
        rw [← hc', hnum] at hn'
        exact absurd hn' (by simp)
  · rw [Frame.lookup_setCol_ne _ _ had]

/-- The transform loop raises exactly when some listed column is absent or
numeric. -/
theorem transform_err_iff :
    ∀ (list : List String) (f : NaFiller) (t : Frame),
      (NaFiller.transform f t list).2 = some () ↔ ∃ c ∈ list, badCol t c := by
  intro list
  induction list with
  | nil =>
    intro f t
    simp [NaFiller.transform]
  | cons d rest ih =>
    intro f t
    cases hd : t.lookup d with
    | none =>
      constructor
      · intro _
        exact ⟨d, List.mem_cons_self _ _, Or.inl hd⟩
      · intro _
        simp [NaFiller.transform, NaFiller.transformStep, hd]
    | some col =>
      cases hnum : col.numeric with
      | true =>
        constructor
        · intro _
          exact ⟨d, List.mem_cons_self _ _, Or.inr ⟨col, hd, hnum⟩⟩
        · intro _
          simp [NaFiller.transform, NaFiller.transformStep, hd, hnum]
      | false =>
        have hstep : NaFiller.transformStep f t d =
            (t.setCol d ⟨col.numeric, fillnaMissing col.cells⟩, none) := by
          simp [NaFiller.transformStep, hd, hnum]
        have hrec : NaFiller.transform f t (d :: rest) =
            NaFiller.transform f
              (t.setCol d ⟨col.numeric, fillnaMissing col.cells⟩) rest := by
          simp only [NaFiller.transform, hstep]
        rw [hrec, ih f _]
        constructor
        · rintro ⟨c, hc, hbad⟩
          exact ⟨c, List.mem_cons_of_mem _ hc,
            (badCol_setCol_categorical hd hnum _ c).1 hbad⟩
        · rintro ⟨c, hc, hbad⟩
          rcases List.mem_cons.1 hc with rfl | hc'
          · rcases hbad with h | ⟨col', hc', hn'⟩
            · rw [hd] at h; exact absurd h (by simp)
            · rw [hd] at hc'
              simp only [Option.some.injEq] at hc'
              rw [← hc', hnum] at hn'
              exact absurd hn' (by simp)
          · exact ⟨c, hc', (badCol_setCol_categorical hd hnum _ c).2 hbad⟩

/-- Any column present after `NaFiller.transform` but absent before it is an
all-zero flag column. -/
theorem transform_new_cols_zero :
    ∀ (list : List String) (f : NaFiller) (t : Frame) (name : String)
      (col' : Column),
      t.lookup name = none →
      ((NaFiller.transform f t list).1).lookup name = some col' →
      ∀ cl ∈ col'.cells, cl = some (Val.num 0) := by
  intro list
  induction list with
  | nil =>
    intro f t name col' hnone hsome
    simp only [NaFiller.transform] at hsome
    rw [hnone] at hsome
    exact absurd hsome (by simp)
  | cons d rest ih =>
    intro f t name col' hnone hsome
    cases hd : t.lookup d with
    | none =>
      simp only [NaFiller.transform, NaFiller.transformStep, hd] at hsome
      rw [hnone] at hsome
      exact absurd hsome (by simp)
    | some col =>
      cases hnum : col.numeric with
      | true =>
        simp [NaFiller.transform, NaFiller.transformStep, hd, hnum] at hsome
        by_cases hname : name = d ++ "_flag"
        · subst hname
          rw [Frame.lookup_setCol_self] at hsome
          simp only [Option.some.injEq] at hsome
          intro cl hcl
          rw [← hsome] at hcl
          exact List.eq_of_mem_replicate hcl
        · rw [Frame.lookup_setCol_ne _ _ hname, hnone] at hsome
          exact absurd hsome (by simp)
      | false =>
        have hstep : NaFiller.transformStep f t d =
            (t.setCol d ⟨col.numeric, fillnaMissing col.cells⟩, none) := by
          simp [NaFiller.transformStep, hd, hnum]
        have hne : name ≠ d := by
          intro h; rw [h, hd] at hnone; exact absurd hnone (by simp)
        have hrec : NaFiller.transform f t (d :: rest) =
            NaFiller.transform f
              (t.setCol d ⟨col.numeric, fillnaMissing col.cells⟩) rest := by
          simp only [NaFiller.transform, hstep]
        rw [hrec] at hsome
        exact ih f _ name col' (by rw [Frame.lookup_setCol_ne _ _ hne]; exact hnone)
          hsome

/-- C5: calling `NaFiller.transform` with a column list containing a numeric
column for which no fill rule was stored fails with an error rather than
silently skipping the column.  (On this code the failure strikes even before
`self.num_imputer_dic[column]` is consulted: the flagging statement raises on
every numeric column — see the `NaFiller` section comment — so the unfit
column is in particular never silently skipped.) -/
theorem C5_transform_unfit_errors (f : NaFiller) (t : Frame)
    (column_list : List String) (c : String) (col : Column)
    (hmem : c ∈ column_list) (hc : t.lookup c = some col)
    (hnum : col.numeric = true)
    (hunfit : ∀ q : ℚ, (c, q) ∉ f.num_imputer_dic) :
    (NaFiller.transform f t column_list).2 = some () :=
  (transform_err_iff column_list f t).2 ⟨c, hmem, Or.inr ⟨col, hc, hnum⟩⟩

/-- C5, witness: a freshly constructed `NaFiller` (empty imputer dictionary)
and a one-numeric-column frame. -/
theorem C5_transform_unfit_errors_witness :
    (NaFiller.transform ⟨"mean", []⟩
        ⟨[0], [("y", ⟨true, [some (Val.num 3)]⟩)]⟩ ["y"]).2 = some () :=
  C5_transform_unfit_errors ⟨"mean", []⟩
    ⟨[0], [("y", ⟨true, [some (Val.num 3)]⟩)]⟩ ["y"] "y"
    ⟨true, [some (Val.num 3)]⟩ (List.mem_singleton.2 rfl) rfl rfl
    (fun _ h => (List.not_mem_nil _ h))

/-- C10 (amended): `NaFiller.transform` never sets any flag entry to `1`:
every column it creates (a flag column) is all zeros.  However it does not
write an all-zero flag for *every* numeric column of the list — the flagging
statement raises on the first numeric (or absent) column processed, the loop
aborts there, and later columns are not processed at all (see
`C10_counterexample`). -/
theorem C10_transform_flag_always_zero :
    (∀ (f : NaFiller) (t : Frame) (column_list : List String),
        (NaFiller.transform f t column_list).2 = some () ↔
          ∃ c ∈ column_list, badCol t c) ∧
    (∀ (f : NaFiller) (t : Frame) (column_list : List String) (name : String)
        (col' : Column),
        t.lookup name = none →
        ((NaFiller.transform f t column_list).1).lookup name = some col' →
        ∀ cl ∈ col'.cells, cl = some (Val.num 0)) :=
  ⟨fun f t l => transform_err_iff l f t, fun f t l => transform_new_cols_zero l f t⟩

/-- C10, witness: both conjuncts at a concrete one-column frame whose numeric
column has a missing value: the created flag column is all zeros and the call
errors. -/
theorem C10_transform_flag_always_zero_witness :
    ((NaFiller.transform ⟨"mean", []⟩ ⟨[0], [("a", ⟨true, [none]⟩)]⟩ ["a"]).2 =
        some () ↔ ∃ c ∈ ["a"], badCol ⟨[0], [("a", ⟨true, [none]⟩)]⟩ c) ∧
    (∀ cl ∈ (Column.mk true [some (Val.num 0)]).cells, cl = some (Val.num 0)) :=
  ⟨C10_transform_flag_always_zero.1 ⟨"mean", []⟩ ⟨[0], [("a", ⟨true, [none]⟩)]⟩
      ["a"],
    C10_transform_flag_always_zero.2 ⟨"mean", []⟩ ⟨[0], [("a", ⟨true, [none]⟩)]⟩
      ["a"] "a_flag" ⟨true, [some (Val.num 0)]⟩ rfl rfl⟩

/-- C10, counterexample to the claim as stated: with two numeric columns both
listed, `transform` raises while processing the first, so the second's flag
column is never written at all — the claim's "for every numeric column in the
column list, transform writes a flag column" fails. -/
theorem C10_counterexample :
    ((NaFiller.transform ⟨"mean", []⟩
        ⟨[0], [("a", ⟨true, [none]⟩), ("b", ⟨true, [none]⟩)]⟩
        ["a", "b"]).1).lookup "b_flag" = none ∧
    (NaFiller.transform ⟨"mean", []⟩
        ⟨[0], [("a", ⟨true, [none]⟩), ("b", ⟨true, [none]⟩)]⟩
        ["a", "b"]).2 = some () := ⟨rfl, rfl⟩

/-- C4: on a one-numeric-column frame, `fit_transform` succeeds but
`transform` of the resulting filler applied to an identical copy of the
original input raises at the flagging statement (the `... is True` identity
test, where `fit_transform` correctly uses `== True`, makes the code index
the series with the scalar `False`; additionally `imp.transform(data[column])`
passes a 1-D series where fit used the 2-D `data[[column]]`).  The round trip
therefore errors instead of reproducing `fit_transform`'s output. -/
theorem C4_roundtrip_raises :
    (NaFiller.fit_transform ⟨"mean", []⟩
        ⟨[0], [("x", ⟨true, [some (Val.num 1)]⟩)]⟩ ["x"]).2.2 = none ∧
    (NaFiller.transform
        (NaFiller.fit_transform ⟨"mean", []⟩
          ⟨[0], [("x", ⟨true, [some (Val.num 1)]⟩)]⟩ ["x"]).2.1
        ⟨[0], [("x", ⟨true, [some (Val.num 1)]⟩)]⟩ ["x"]).2 = some () :=
  ⟨rfl, rfl⟩

/-- The indicator cells the spec expects of a flag column: `1` at originally
missing positions, `0` elsewhere. -/
def flagCells (cells : List Cell) : List Cell :=
  cells.map (fun cl => some (Val.num (if cl.isNA then (1 : ℚ) else 0)))

theorem naCount_le_length (cells : List Cell) :
    Row.naCount cells ≤ cells.length :=
  List.length_filter_le _ _

/-- The indicator cells hold exactly `naCount` ones and `length - naCount`
zeros. -/
theorem flagCells_count (cells : List Cell) :
    (flagCells cells).count (some (Val.num 1)) = Row.naCount cells ∧
    (flagCells cells).count (some (Val.num 0)) =
      cells.length - Row.naCount cells := by
  induction cells with
  | nil => simp [flagCells, Row.naCount]
  | cons c r ih =>
    have hle := naCount_le_length r
    have h10 : ¬ (some (Val.num (1 : ℚ)) = some (Val.num 0)) := by
      intro hc
      exact one_ne_zero (Val.num.inj (Option.some.inj hc))
    have h01 : ¬ (some (Val.num (0 : ℚ)) = some (Val.num 1)) := by
      intro hc
      exact one_ne_zero (Val.num.inj (Option.some.inj hc)).symm
    simp only [flagCells] at ih
    obtain ⟨i1, i2⟩ := ih
    by_cases h : c.isNA = true
    · have hna : Row.naCount (c :: r) = Row.naCount r + 1 := by
        simp [Row.naCount, List.filter_cons, h]
      refine ⟨?_, ?_⟩
      · simp only [flagCells, List.map_cons, h, if_pos, List.count_cons,
          List.length_cons, hna]
        simp [i1]
      · simp only [flagCells, List.map_cons, h, if_pos, List.count_cons,
          List.length_cons, hna]
        simp [h10]
        omega
    · have hna : Row.naCount (c :: r) = Row.naCount r := by
        simp [Row.naCount, List.filter_cons, h]
      refine ⟨?_, ?_⟩
      · simp only [flagCells, List.map_cons, h, if_neg, List.count_cons,
          List.length_cons, hna]
        simp [h01, i1]
      · simp only [flagCells, List.map_cons, h, if_neg, List.count_cons,
          List.length_cons, hna]
        simp [i2]
        omega

theorem NaFiller.fitStep_index (f : NaFiller) (t : Frame) (c : String) :
    ((NaFiller.fitStep f t c).1).index = t.index := by
  cases hc : t.lookup c with
  | none => simp only [NaFiller.fitStep, hc]
  | some col =>
    simp only [NaFiller.fitStep, hc]
    by_cases hnum : col.numeric = false
    · rw [if_pos hnum]; rfl
    · rw [if_neg hnum]
      by_cases hall : ((List.range col.cells.length).filter
          (fun i => (col.cells.getD i none).isNA)).all
          (fun p => t.index.contains p) = false
      · rw [if_pos hall]; rfl
      · rw [if_neg hall]
        by_cases hnil : (numericCells col.cells).isEmpty = true
        · rw [if_pos hnil]; rfl
        · rw [if_neg hnil]; rfl

theorem NaFiller.fitStep_lookup_other (f : NaFiller) (t : Frame) (c : String)
    {name : String} (h1 : name ≠ c) (h2 : name ≠ c ++ "_flag") :
    ((NaFiller.fitStep f t c).1).lookup name = t.lookup name := by
  have e1 : ∀ (u : Frame) (cl : Column),
      (u.setCol c cl).lookup name = u.lookup name :=
    fun u cl => Frame.lookup_setCol_ne u cl h1
  have e2 : ∀ (u : Frame) (cl : Column),
      (u.setCol (c ++ "_flag") cl).lookup name = u.lookup name :=
    fun u cl => Frame.lookup_setCol_ne u cl h2
  cases hc : t.lookup c with
  | none => simp only [NaFiller.fitStep, hc]
  | some col =>
    simp only [NaFiller.fitStep, hc]
    by_cases hnum : col.numeric = false
    · rw [if_pos hnum]
      exact e1 t _
    · rw [if_neg hnum]
      by_cases hall : ((List.range col.cells.length).filter
          (fun i => (col.cells.getD i none).isNA)).all
          (fun p => t.index.contains p) = false
      · rw [if_pos hall]
        exact e2 t _
      · rw [if_neg hall]
        by_cases hnil : (numericCells col.cells).isEmpty = true
        · rw [if_pos hnil]
          rw [e2, e2]
        · rw [if_neg hnil]
          rw [e1, e2, e2]

theorem NaFiller.fit_transform_cons (f : NaFiller) (t : Frame) (d : String)
    (rest : List String) :
    NaFiller.fit_transform f t (d :: rest) =
      match NaFiller.fitStep f t d with
      | (t', f', some e) => (t', f', some e)
      | (t', f', none) => NaFiller.fit_transform f' t' rest := rfl

/-- The fit loop leaves every column alone whose name is neither a listed
column nor a listed column's flag. -/
theorem fit_transform_lookup_other (name : String) :
    ∀ (list : List String) (f : NaFiller) (t : Frame),
      (∀ d ∈ list, d ≠ name ∧ d ++ "_flag" ≠ name) →
      ((NaFiller.fit_transform f t list).1).lookup name = t.lookup name := by
  intro list
  induction list with
  | nil => intro f t _; rfl
  | cons d rest ih =>
    intro f t hlist
    obtain ⟨hd1, hd2⟩ := hlist d (List.mem_cons_self _ _)
    have hstep := NaFiller.fitStep_lookup_other f t d
      (fun h => hd1 h.symm) (fun h => hd2 h.symm)
    rcases hfs : NaFiller.fitStep f t d with ⟨t', f', err⟩
    rw [hfs] at hstep
    cases err with
    | some e =>
      rw [NaFiller.fit_transform_cons, hfs]
      exact hstep
    | none =>
      rw [NaFiller.fit_transform_cons, hfs]
      dsimp only
      rw [ih f' t' (fun x hx => hlist x (List.mem_cons_of_mem _ hx)), hstep]

/-- The label-addressed flag assignment equals the positional indicator when
the index is the default `0..n-1`. -/
theorem flag_index_map (cells : List Cell) :
    (List.range cells.length).map (fun l => some (Val.num
        (if l ∈ (List.range cells.length).filter
            (fun i => (cells.getD i none).isNA) then (1 : ℚ) else 0))) =
      flagCells cells := by
  apply List.ext_get
  · simp [flagCells]
  · intro i h1 h2
    have hi : i < cells.length := by
      simpa [flagCells] using h2
    simp only [List.get_map, List.get_range, flagCells]
    have hcond : (i ∈ (List.range cells.length).filter
        (fun j => (cells.getD j none).isNA)) ↔
          ((cells.get ⟨i, hi⟩).isNA = true) := by
      rw [List.mem_filter]
      constructor
      · rintro ⟨_, hp⟩
        rw [List.getD_eq_get cells none hi] at hp
        exact hp
      · intro h
        exact ⟨List.mem_range.2 hi, by rw [List.getD_eq_get cells none hi]; exact h⟩
    have hgd : (cells[i]?.getD none) = cells[i] := by
      simp [List.getElem?_eq_getElem hi]
    simp [hcond, hgd, hi]

/-- The numeric fit step, when it does not raise, stores the positional
missing-value indicator in the flag column — provided the frame has the
default index. -/
theorem NaFiller.fitStep_numeric_flag (f : NaFiller) (t : Frame) (c : String)
    (col : Column) (n : ℕ)
    (hc : t.lookup c = some col) (hnum : col.numeric = true)
    (hidx : t.index = List.range n) (hlen : col.cells.length = n)
    (hok : (NaFiller.fitStep f t c).2.2 = none) :
    ((NaFiller.fitStep f t c).1).lookup (c ++ "_flag") =
      some ⟨true, flagCells col.cells⟩ := by
  have hnum' : ¬ (col.numeric = false) := by rw [hnum]; simp
  have hall : ((List.range col.cells.length).filter
      (fun i => (col.cells.getD i none).isNA)).all
      (fun p => t.index.contains p) = true := by
    rw [List.all_eq_true]
    intro p hp
    have hpr : p < col.cells.length := List.mem_range.1 (List.mem_filter.1 hp).1
    rw [hidx]
    have hpn : p ∈ List.range n := List.mem_range.2 (hlen ▸ hpr)
    exact List.elem_eq_true_of_mem hpn
  have hallne : ¬ (((List.range col.cells.length).filter
      (fun i => (col.cells.getD i none).isNA)).all
      (fun p => t.index.contains p) = false) := by
    rw [hall]; simp
  simp only [NaFiller.fitStep, hc] at hok ⊢
  rw [if_neg hnum', if_neg hallne] at hok ⊢
  by_cases hnil : (numericCells col.cells).isEmpty = true
  · rw [if_pos hnil] at hok
    exact absurd hok (by simp)
  · rw [if_neg hnil]
    have hproj : ((((t.setCol (c ++ "_flag")
        ⟨true, col.cells.map (fun _ => some (Val.num 0))⟩).setCol (c ++ "_flag")
          ⟨true, t.index.map (fun l => some (Val.num
            (if l ∈ (List.range col.cells.length).filter
              (fun i => (col.cells.getD i none).isNA) then (1 : ℚ) else 0)))⟩).setCol
          c ⟨col.numeric, col.cells.map (fun cl => match cl with
            | none => some (Val.num (if f.numeric_method = "median" then
                npMedian (numericCells col.cells) else npMean (numericCells col.cells)))
            | some v => some v)⟩).lookup (c ++ "_flag")) =
        some ⟨true, t.index.map (fun l => some (Val.num
          (if l ∈ (List.range col.cells.length).filter
            (fun i => (col.cells.getD i none).isNA) then (1 : ℚ) else 0)))⟩ := by
      rw [Frame.lookup_setCol_ne _ _ (Ne.symm (ne_self_append_flag c)),
        Frame.lookup_setCol_self]
    rw [hproj]
    rw [hidx, ← hlen]
    rw [flag_index_map]

/-- Core induction for C6: if `c` occurs once in the list, no listed name
collides with `c` or its flag name, the frame has the default index, and the
fit loop succeeds, the final frame holds the positional missing-value
indicator in `c`'s flag column. -/
theorem fit_transform_flag_aux (c : String) (col : Column) (n : ℕ)
    (hnum : col.numeric = true) (hlen : col.cells.length = n) :
    ∀ (list : List String) (f : NaFiller) (t : Frame),
      t.index = List.range n →
      t.lookup c = some col →
      c ∈ list →
      list.count c = 1 →
      (∀ d ∈ list, d ≠ c ++ "_flag") →
      (∀ d ∈ list, d ++ "_flag" ≠ c) →
      (NaFiller.fit_transform f t list).2.2 = none →
      ((NaFiller.fit_transform f t list).1).lookup (c ++ "_flag") =
        some ⟨true, flagCells col.cells⟩ := by
  intro list
  induction list with
  | nil => intro f t _ _ hmem _ _ _ _; exact absurd hmem (List.not_mem_nil c)
  | cons d rest ih =>
    intro f t hidx hc hmem honce hflag1 hflag2 hok
    rcases hfs : NaFiller.fitStep f t d with ⟨t', f', err⟩
    cases err with
    | some e =>
      rw [NaFiller.fit_transform_cons, hfs] at hok
      simp at hok
    | none =>
      rw [NaFiller.fit_transform_cons, hfs] at hok ⊢
      dsimp only at hok ⊢
      by_cases hdc : d = c
      · subst hdc
        have hnotin : d ∉ rest := by
          rw [List.count_cons_self] at honce
          exact List.count_eq_zero.1 (by omega)
        have hflag : t'.lookup (d ++ "_flag") = some ⟨true, flagCells col.cells⟩ := by
          have h0 : (NaFiller.fitStep f t d).2.2 = none := by rw [hfs]
          have hlem := NaFiller.fitStep_numeric_flag f t d col n hc hnum hidx hlen h0
          rw [hfs] at hlem
          exact hlem
        have hpres : ∀ x ∈ rest, x ≠ d ++ "_flag" ∧ x ++ "_flag" ≠ d ++ "_flag" := by
          intro x hx
          refine ⟨hflag1 x (List.mem_cons_of_mem _ hx), ?_⟩
          intro hxe
          exact hnotin (by rw [← append_flag_inj hxe]; exact hx)
        rw [fit_transform_lookup_other (d ++ "_flag") rest f' t' hpres, hflag]
      · have hcd : c ≠ d := fun h => hdc h.symm
        have hcr : c ∈ rest := by
          rcases List.mem_cons.1 hmem with h | h
          · exact absurd h.symm hdc
          · exact h
        have hidx' : t'.index = List.range n := by
          have hlem := NaFiller.fitStep_index f t d
          rw [hfs] at hlem
          rw [hlem, hidx]
        have hc' : t'.lookup c = some col := by
          have hlem := NaFiller.fitStep_lookup_other f t d
            hcd (fun h => hflag2 d (List.mem_cons_self _ _) h.symm)
          rw [hfs] at hlem
          rw [hlem, hc]
        have honce' : rest.count c = 1 := by
          rwa [List.count_cons_of_ne hcd] at honce
        exact ih f' t' hidx' hc' hcr honce'
          (fun x hx => hflag1 x (List.mem_cons_of_mem _ hx))
          (fun x hx => hflag2 x (List.mem_cons_of_mem _ hx)) hok

/-- C6 (amended): for a frame with the *default* index `0..n-1`, a numeric
column `c` with `k` missing entries listed once (and no listed name colliding
with `c` or `c_flag`), a successful `fit_transform` leaves in `c_flag` exactly
the positional indicator of the originally missing entries: `1` at missing
positions, `0` elsewhere, hence exactly `k` ones and `n - k` zeros.  (The
source assigns the flags by *index label*, so on a non-default index the ones
land at rows whose label equals a missing position, not at the missing
positions themselves — see `C6_counterexample`.) -/
theorem C6_fit_transform_flag (f : NaFiller) (t : Frame)
    (column_list : List String) (c : String) (col : Column) (n : ℕ)
    (hidx : t.index = List.range n)
    (hc : t.lookup c = some col)
    (hnum : col.numeric = true)
    (hlen : col.cells.length = n)
    (hmem : c ∈ column_list)
    (honce : column_list.count c = 1)
    (hflag1 : ∀ d ∈ column_list, d ≠ c ++ "_flag")
    (hflag2 : ∀ d ∈ column_list, d ++ "_flag" ≠ c)
    (hok : (NaFiller.fit_transform f t column_list).2.2 = none) :
    ((NaFiller.fit_transform f t column_list).1).lookup (c ++ "_flag") =
      some ⟨true, flagCells col.cells⟩ ∧
    (flagCells col.cells).count (some (Val.num 1)) = Row.naCount col.cells ∧
    (flagCells col.cells).count (some (Val.num 0)) = n - Row.naCount col.cells :=
  ⟨fit_transform_flag_aux c col n hnum hlen column_list f t hidx hc hmem honce
      hflag1 hflag2 hok,
    (flagCells_count col.cells).1,
    by rw [← hlen]; exact (flagCells_count col.cells).2⟩

/-- C6, witness: a default-index two-row frame whose numeric column has one
missing entry. -/
theorem C6_fit_transform_flag_witness :
    ((NaFiller.fit_transform ⟨"mean", []⟩
        ⟨List.range 2, [("x", ⟨true, [none, some (Val.num 4)]⟩)]⟩ ["x"]).1).lookup
        ("x" ++ "_flag") =
      some ⟨true, flagCells [none, some (Val.num 4)]⟩ ∧
    (flagCells [none, some (Val.num 4)]).count (some (Val.num 1)) =
      Row.naCount [none, some (Val.num 4)] ∧
    (flagCells [none, some (Val.num 4)]).count (some (Val.num 0)) =
      2 - Row.naCount [none, some (Val.num 4)] :=
  C6_fit_transform_flag ⟨"mean", []⟩
    ⟨List.range 2, [("x", ⟨true, [none, some (Val.num 4)]⟩)]⟩ ["x"] "x"
    ⟨true, [none, some (Val.num 4)]⟩ 2 rfl rfl rfl rfl
    (List.mem_singleton.2 rfl) (by decide) (by decide) (by decide) rfl

/-- C6, counterexample to the claim as stated: on a two-row table whose index
labels are `[1, 0]` (a permutation of the positions), the single missing entry
sits at *position* 0, but the code flags the row whose *label* is 0 — the
second row.  The written flag column `[0, 1]` differs from the positional
indicator `[1, 0]`: the `1` is not at the originally missing position. -/
theorem C6_counterexample :
    (NaFiller.fit_transform ⟨"mean", []⟩
        ⟨[1, 0], [("x", ⟨true, [none, some (Val.num 2)]⟩)]⟩ ["x"]).2.2 = none ∧
    ((NaFiller.fit_transform ⟨"mean", []⟩
        ⟨[1, 0], [("x", ⟨true, [none, some (Val.num 2)]⟩)]⟩ ["x"]).1).lookup
        "x_flag" = some ⟨true, [some (Val.num 0), some (Val.num 1)]⟩ ∧
    flagCells [none, some (Val.num 2)] =
      [some (Val.num 1), some (Val.num 0)] ∧
    ([some (Val.num 0), some (Val.num 1)] : List Cell) ≠
      [some (Val.num 1), some (Val.num 0)] :=
  ⟨rfl, rfl, rfl, by decide⟩
